import Mathlib

/-!
Verification of the map declutter engine (`map_engine.py`): `BoundingBox`,
`MapElement` and `MapDeclutterEngine` are embedded as Lean functions over
value-typed element lists.  Python objects mutated in place are modelled by
replacing the list entry at the element's index; `self.fixed_elements` and
`self.movable_elements` alias objects of `self.elements` whose `movable`
flag never changes, so they are recomputed here as filters of the current
list, which always coincides with the construction-time snapshot (proved
below as `fixed_elements_declutterStep` and friends).  Coordinates are
integers (the demo uses integer geometry); the statistics percentage is a
rational, modelling the source's division exactly.
-/

structure BoundingBox where
  x : Int
  y : Int
  width : Int
  height : Int
deriving DecidableEq

/-- `BoundingBox.intersects`: edge-inclusive overlap test (strict `<` separation). -/
def BoundingBox.intersects (self other : BoundingBox) : Bool :=
  !(decide (self.x + self.width < other.x) ||
    decide (other.x + other.width < self.x) ||
    decide (self.y + self.height < other.y) ||
    decide (other.y + other.height < self.y))

/-- `BoundingBox.move`: a new box translated by `(dx, dy)`, same size. -/
def BoundingBox.move (self : BoundingBox) (dx dy : Int) : BoundingBox :=
  BoundingBox.mk (self.x + dx) (self.y + dy) self.width self.height

/-- `MapElement.PRIORITY` lookup with default `0` (`PRIORITY.get(element_type, 0)`). -/
def PRIORITY (element_type : String) : Int :=
  if element_type = "road" then 10
  else if element_type = "river" then 10
  else if element_type = "label" then 1
  else if element_type = "icon" then 2
  else 0

structure MapElement where
  id : String
  type : String
  bbox : BoundingBox
  priority : Int
  movable : Bool
  original_bbox : BoundingBox
  moved : Bool
deriving DecidableEq

/-- `MapElement.__init__`: derives `priority` and `movable`, copies `bbox`
field-by-field into `original_bbox`, starts with `moved = False`. -/
def MapElement.make (id element_type : String) (bbox : BoundingBox) : MapElement :=
  MapElement.mk id element_type bbox (PRIORITY element_type)
    (decide (PRIORITY element_type < 5))
    (BoundingBox.mk bbox.x bbox.y bbox.width bbox.height) false

/-- `MapDeclutterEngine.MOVEMENT_OFFSETS`, in source order. -/
def MOVEMENT_OFFSETS : List (Int × Int) :=
  [(0, -15), (0, 15), (15, 0), (-15, 0), (15, -15), (-15, -15), (15, 15), (-15, 15)]

/-- `self.fixed_elements` computed in `MapDeclutterEngine.__init__`. -/
def fixed_elements (elements : List MapElement) : List MapElement :=
  elements.filter (fun e => !e.movable)

/-- `self.movable_elements` computed in `MapDeclutterEngine.__init__`. -/
def movable_elements (elements : List MapElement) : List MapElement :=
  elements.filter (fun e => e.movable)

/-- `MapDeclutterEngine.detect_overlap`. -/
def detect_overlap (elem_a elem_b : MapElement) : Bool :=
  elem_a.bbox.intersects elem_b.bbox

/-- `MapDeclutterEngine.find_overlaps`: every element with a different `id`
whose bbox intersects the given element's bbox, in element order. -/
def find_overlaps (elements : List MapElement) (element : MapElement) : List MapElement :=
  elements.filter (fun other => decide (other.id ≠ element.id) && detect_overlap element other)

/-- `MapDeclutterEngine._is_valid_position` (the `element_id` argument is
unused, exactly as in the source). -/
def is_valid_position (fixed : List MapElement) (bbox : BoundingBox)
    (element_id : String) : Bool :=
  fixed.all (fun f => !(bbox.intersects f.bbox))

/-- `MapDeclutterEngine._reposition_element`: first valid candidate offset, else none. -/
def reposition_element (fixed : List MapElement) (element : MapElement) :
    Option BoundingBox :=
  MOVEMENT_OFFSETS.findSome? (fun d =>
    let candidate_bbox := element.bbox.move d.1 d.2
    if is_valid_position fixed candidate_bbox element.id then some candidate_bbox else none)

/-- Body of the `for movable in self.movable_elements` loop of
`resolve_clutter`, acting on the element stored at index `i`.  A no-op when
that element is fixed: the Python loop simply never visits fixed elements,
and `movable` flags never change, so visiting all indices and skipping fixed
ones processes exactly the movable elements in their construction order. -/
def declutterStep (elements : List MapElement) (i : Nat) : List MapElement × Bool :=
  match elements.get? i with
  | none => (elements, false)
  | some movable =>
    if movable.movable then
      let overlaps := (find_overlaps elements movable).filter (fun e => !e.movable)
      if overlaps.isEmpty then (elements, false)
      else
        match reposition_element (fixed_elements elements) movable with
        | some new_bbox =>
          (elements.set i (MapElement.mk movable.id movable.type new_bbox movable.priority
            movable.movable movable.original_bbox true), true)
        | none => (elements, false)
    else (elements, false)

/-- One iteration of the `while` loop of `resolve_clutter`: fold
`declutterStep` over the given indices, accumulating `resolved_any`. -/
def runPassAux : List Nat → List MapElement → Bool → List MapElement × Bool
  | [], elements, resolved_any => (elements, resolved_any)
  | i :: rest, elements, resolved_any =>
    let s := declutterStep elements i
    runPassAux rest s.1 (resolved_any || s.2)

/-- One iteration (pass) of `resolve_clutter` over all elements. -/
def runPass (elements : List MapElement) : List MapElement × Bool :=
  runPassAux (List.range elements.length) elements false

/-- The `while iteration < max_iterations` loop of `resolve_clutter`: returns
the final element list and the list of per-iteration `resolved_any` flags,
one entry per executed iteration. -/
def resolveAux : Nat → List MapElement → List MapElement × List Bool
  | 0, elements => (elements, [])
  | fuel + 1, elements =>
    let p := runPass elements
    if p.2 then
      let r := resolveAux fuel p.1
      (r.1, p.2 :: r.2)
    else (p.1, [p.2])

/-- `MapDeclutterEngine.resolve_clutter`: final element list and the returned
iteration count (`max_iterations = 10`). -/
def resolve_clutter (elements : List MapElement) : List MapElement × Nat :=
  ((resolveAux 10 elements).1, (resolveAux 10 elements).2.length)

structure Statistics where
  total_elements : Nat
  fixed_elements : Nat
  movable_elements : Nat
  elements_moved : Nat
  move_percentage : ℚ
deriving DecidableEq

/-- `MapDeclutterEngine.get_statistics`; the source's true division is
modelled exactly in `ℚ`. -/
def get_statistics (elements : List MapElement) : Statistics :=
  Statistics.mk elements.length (fixed_elements elements).length
    (movable_elements elements).length
    ((movable_elements elements).filter (fun e => e.moved)).length
    (if 0 < (movable_elements elements).length then
      (((movable_elements elements).filter (fun e => e.moved)).length : ℚ) /
        ((movable_elements elements).length : ℚ) * 100
     else 0)

/-! ### Generic list helpers -/

theorem set_of_get?_self {α : Type} :
    ∀ (l : List α) (i : Nat) (a : α), l.get? i = some a → l.set i a = l
  | [], _, _, h => by simp at h
  | x :: xs, 0, a, h => by
    simp only [List.get?, Option.some.injEq] at h
    subst h
    rfl
  | x :: xs, i + 1, a, h => by
    simp only [List.get?] at h
    simp [List.set, set_of_get?_self xs i a h]

theorem filter_set_of_false {α : Type} (p : α → Bool) :
    ∀ (l : List α) (i : Nat) (a b : α), l.get? i = some a → p a = false → p b = false →
      (l.set i b).filter p = l.filter p
  | [], _, _, _, h, _, _ => by simp at h
  | x :: xs, 0, a, b, h, ha, hb => by
    simp only [List.get?, Option.some.injEq] at h
    subst h
    simp [List.set, List.filter, ha, hb]
  | x :: xs, i + 1, a, b, h, ha, hb => by
    simp only [List.get?] at h
    simp only [List.set, List.filter]
    rw [filter_set_of_false p xs i a b h ha hb]

/-! ### Fields never touched by the engine (`id`, `type`, `original_bbox`,
`priority`, `movable`) are preserved through every step of resolution. -/

def immut (e : MapElement) : String × String × BoundingBox × Int × Bool :=
  (e.id, e.type, e.original_bbox, e.priority, e.movable)

theorem immut_declutterStep (els : List MapElement) (i : Nat) :
    ((declutterStep els i).1).map immut = els.map immut := by
  unfold declutterStep
  cases h : els.get? i with
  | none => rfl
  | some m =>
    by_cases hm : m.movable = true
    · simp only [hm, if_true]
      by_cases he : ((find_overlaps els m).filter (fun e => !e.movable)).isEmpty
      · simp [he]
      · simp only [he, if_false, Bool.false_eq_true]
        cases hr : reposition_element (fixed_elements els) m with
        | none => rfl
        | some nb =>
          simp only [List.map_set]
          have himm : immut (MapElement.mk m.id m.type nb m.priority true m.original_bbox true)
              = immut m := by
            simp [immut, hm]
          rw [himm]
          have hmap : (els.map immut).get? i = some (immut m) := by
            rw [List.get?_map, h]; rfl
          exact set_of_get?_self (els.map immut) i (immut m) hmap
    · simp [hm]

theorem immut_runPassAux :
    ∀ (idxs : List Nat) (els : List MapElement) (r : Bool),
      ((runPassAux idxs els r).1).map immut = els.map immut
  | [], els, r => rfl
  | i :: rest, els, r => by
    simp only [runPassAux]
    rw [immut_runPassAux rest _ _, immut_declutterStep]

theorem immut_runPass (els : List MapElement) :
    ((runPass els).1).map immut = els.map immut :=
  immut_runPassAux _ els false

theorem immut_resolveAux :
    ∀ (fuel : Nat) (els : List MapElement),
      ((resolveAux fuel els).1).map immut = els.map immut
  | 0, els => rfl
  | fuel + 1, els => by
    simp only [resolveAux]
    by_cases hp : (runPass els).2 = true
    · simp only [hp, if_true]
      rw [immut_resolveAux fuel _, immut_runPass]
    · simp only [hp, if_false, Bool.false_eq_true]
      exact immut_runPass els

theorem immut_resolve_clutter (els : List MapElement) :
    ((resolve_clutter els).1).map immut = els.map immut :=
  immut_resolveAux 10 els

theorem length_resolve_clutter (els : List MapElement) :
    (resolve_clutter els).1.length = els.length := by
  have h := congrArg List.length (immut_resolve_clutter els)
  simpa using h

/-! ### The fixed-element list is stable through resolution. -/

theorem fixed_elements_declutterStep (els : List MapElement) (i : Nat) :
    fixed_elements (declutterStep els i).1 = fixed_elements els := by
  unfold declutterStep
  cases h : els.get? i with
  | none => rfl
  | some m =>
    by_cases hm : m.movable = true
    · simp only [hm, if_true]
      by_cases he : ((find_overlaps els m).filter (fun e => !e.movable)).isEmpty
      · simp [he]
      · simp only [he, if_false, Bool.false_eq_true]
        cases hr : reposition_element (fixed_elements els) m with
        | none => rfl
        | some nb =>
          unfold fixed_elements
          exact filter_set_of_false _ els i m _ h (by simp [hm]) (by simp [hm])
    · simp [hm]

theorem fixed_elements_runPassAux :
    ∀ (idxs : List Nat) (els : List MapElement) (r : Bool),
      fixed_elements (runPassAux idxs els r).1 = fixed_elements els
  | [], els, r => rfl
  | i :: rest, els, r => by
    simp only [runPassAux]
    rw [fixed_elements_runPassAux rest _ _, fixed_elements_declutterStep]

theorem fixed_elements_runPass (els : List MapElement) :
    fixed_elements (runPass els).1 = fixed_elements els :=
  fixed_elements_runPassAux _ els false

theorem fixed_elements_resolveAux :
    ∀ (fuel : Nat) (els : List MapElement),
      fixed_elements (resolveAux fuel els).1 = fixed_elements els
  | 0, els => rfl
  | fuel + 1, els => by
    simp only [resolveAux]
    by_cases hp : (runPass els).2 = true
    · simp only [hp, if_true]
      rw [fixed_elements_resolveAux fuel _, fixed_elements_runPass]
    · simp only [hp, if_false, Bool.false_eq_true]
      exact fixed_elements_runPass els

theorem fixed_elements_resolve_clutter (els : List MapElement) :
    fixed_elements (resolve_clutter els).1 = fixed_elements els :=
  fixed_elements_resolveAux 10 els

/-! ### Settledness: after one pass, every movable element either overlaps no
fixed element or has no valid candidate, and such a state is a fixed point. -/

/-- The fixed-only overlap list
`[e for e in self.find_overlaps(movable) if not e.movable]`, expressed as a
function of the fixed-element list alone. -/
def overlapsFixedList (fixed : List MapElement) (e : MapElement) : List MapElement :=
  fixed.filter (fun other => decide (other.id ≠ e.id) && detect_overlap e other)

theorem overlaps_filter_eq (els : List MapElement) (e : MapElement) :
    (find_overlaps els e).filter (fun x => !x.movable)
      = overlapsFixedList (fixed_elements els) e := by
  unfold find_overlaps overlapsFixedList fixed_elements
  rw [List.filter_filter, List.filter_filter]
  exact List.filter_congr (fun x _ => Bool.and_comm _ _)

/-- A movable element is settled w.r.t. a fixed list: if it still overlaps a
different-id fixed element, every candidate offset is rejected. -/
def SettledAt (fixed : List MapElement) (e : MapElement) : Prop :=
  overlapsFixedList fixed e ≠ [] → reposition_element fixed e = none

def SettledAll (fixed : List MapElement) (els : List MapElement) : Prop :=
  ∀ (j : Nat) (e : MapElement), els.get? j = some e → e.movable = true → SettledAt fixed e

theorem reposition_valid (fixed : List MapElement) (e : MapElement) (nb : BoundingBox)
    (h : reposition_element fixed e = some nb) : is_valid_position fixed nb e.id = true := by
  unfold reposition_element at h
  obtain ⟨d, -, hd⟩ := List.exists_of_findSome?_eq_some h
  simp only [] at hd
  split at hd
  case isTrue hv =>
    obtain rfl : e.bbox.move d.1 d.2 = nb := by injection hd
    exact hv
  case isFalse => cases hd

theorem valid_no_intersect (fixed : List MapElement) (b : BoundingBox) (s : String)
    (h : is_valid_position fixed b s = true) :
    ∀ f ∈ fixed, b.intersects f.bbox = false := by
  intro f hf
  have hh := (List.all_eq_true.mp h) f hf
  simpa using hh

theorem declutterStep_get?_ne (els : List MapElement) (i j : Nat) (hij : i ≠ j) :
    (declutterStep els i).1.get? j = els.get? j := by
  unfold declutterStep
  cases h : els.get? i with
  | none => rfl
  | some m =>
    by_cases hm : m.movable = true
    · simp only [hm, if_true]
      by_cases he : ((find_overlaps els m).filter (fun e => !e.movable)).isEmpty
      · simp [he]
      · simp only [he, if_false, Bool.false_eq_true]
        cases hr : reposition_element (fixed_elements els) m with
        | none => rfl
        | some nb =>
          rw [List.get?_set, if_neg hij]
    · simp [hm]

theorem declutterStep_settled_self (els : List MapElement) (i : Nat) (e : MapElement)
    (h : (declutterStep els i).1.get? i = some e) (hm : e.movable = true) :
    SettledAt (fixed_elements els) e := by
  unfold declutterStep at h
  revert h
  cases h0 : els.get? i with
  | none =>
    intro h
    rw [h0] at h
    cases h
  | some m =>
    by_cases hmm : m.movable = true
    · simp only [hmm, if_true]
      by_cases he : ((find_overlaps els m).filter (fun x => !x.movable)).isEmpty
      · simp only [he, if_true]
        intro h
        rw [h0] at h
        injection h with h
        subst h
        intro hne
        exfalso
        rw [overlaps_filter_eq] at he
        exact hne (List.isEmpty_eq_true.mp he)
      · simp only [he, if_false, Bool.false_eq_true]
        cases hr : reposition_element (fixed_elements els) m with
        | none =>
          intro h
          rw [h0] at h
          injection h with h
          subst h
          intro _
          exact hr
        | some nb =>
          intro h
          rw [List.get?_set, if_pos rfl, h0] at h
          simp only [Option.map_eq_map, Option.map_some'] at h
          injection h with h
          subst h
          intro hne
          exfalso
          apply hne
          have hv := reposition_valid _ _ _ hr
          have hni := valid_no_intersect _ _ _ hv
          apply List.filter_eq_nil.mpr
          intro f hf
          simp [detect_overlap, hni f hf]
    · simp only [hmm, if_false, Bool.false_eq_true]
      intro h
      rw [h0] at h
      injection h with h
      subst h
      exact absurd hm hmm

theorem runPassAux_settles (fx : List MapElement) :
    ∀ (idxs : List Nat) (els : List MapElement) (r : Bool),
      fixed_elements els = fx →
      (∀ (j : Nat) (e : MapElement), els.get? j = some e → e.movable = true →
        j ∈ idxs ∨ SettledAt fx e) →
      SettledAll fx (runPassAux idxs els r).1
  | [], els, r, _, hpre => by
    intro j e hj hm
    rcases hpre j e hj hm with hin | hs
    · exact absurd hin (List.not_mem_nil j)
    · exact hs
  | i :: rest, els, r, hfx, hpre => by
    simp only [runPassAux]
    apply runPassAux_settles fx rest _ _
    · rw [fixed_elements_declutterStep, hfx]
    · intro j e hj hm
      by_cases hij : i = j
      · subst hij
        refine Or.inr ?later
        have hs := declutterStep_settled_self els i e hj hm
        rwa [hfx] at hs
      · rw [declutterStep_get?_ne els i j hij] at hj
        rcases hpre j e hj hm with hin | hs
        · rcases List.mem_cons.mp hin with h1 | h2
          · exact absurd h1.symm hij
          · exact Or.inl h2
        · exact Or.inr hs

theorem runPass_settles (els : List MapElement) :
    SettledAll (fixed_elements els) (runPass els).1 := by
  apply runPassAux_settles (fixed_elements els) (List.range els.length) els false rfl
  intro j e hj _
  obtain ⟨hjlen, -⟩ := List.get?_eq_some.mp hj
  exact Or.inl (List.mem_range.mpr hjlen)

theorem settled_declutterStep (els : List MapElement) (i : Nat)
    (hs : SettledAll (fixed_elements els) els) :
    declutterStep els i = (els, false) := by
  unfold declutterStep
  cases h0 : els.get? i with
  | none => rfl
  | some m =>
    by_cases hm : m.movable = true
    · simp only [hm, if_true]
      by_cases he : ((find_overlaps els m).filter (fun x => !x.movable)).isEmpty
      · simp [he]
      · simp only [he, if_false, Bool.false_eq_true]
        have hne : overlapsFixedList (fixed_elements els) m ≠ [] := by
          rw [← overlaps_filter_eq]
          intro hnil
          exact he (by simp [hnil])
        rw [hs i m h0 hm hne]
    · simp [hm]

theorem settled_runPassAux :
    ∀ (idxs : List Nat) (els : List MapElement) (r : Bool),
      SettledAll (fixed_elements els) els →
      runPassAux idxs els r = (els, r)
  | [], _, _, _ => rfl
  | i :: rest, els, r, hs => by
    simp only [runPassAux, settled_declutterStep els i hs, Bool.or_false]
    exact settled_runPassAux rest els r hs

theorem settled_runPass (els : List MapElement)
    (hs : SettledAll (fixed_elements els) els) :
    runPass els = (els, false) :=
  settled_runPassAux (List.range els.length) els false hs

theorem resolveAux_settled (fuel : Nat) (els : List MapElement)
    (hs : SettledAll (fixed_elements els) els) :
    resolveAux (fuel + 1) els = (els, [false]) := by
  simp [resolveAux, settled_runPass els hs]

/-- One pass settles everything, so the loop body runs once or twice: the
final state is the first pass's output and the `resolved_any` trace is either
`[false]` or `[true, false]`. -/
theorem resolveAux_key (fuel : Nat) (els : List MapElement) :
    resolveAux (fuel + 1 + 1) els
      = ((runPass els).1, if (runPass els).2 then [true, false] else [false]) := by
  have hsettled : SettledAll (fixed_elements (runPass els).1) (runPass els).1 := by
    rw [fixed_elements_runPass]
    exact runPass_settles els
  have h1 : resolveAux (fuel + 1) (runPass els).1 = ((runPass els).1, [false]) :=
    resolveAux_settled fuel (runPass els).1 hsettled
  have hstep : resolveAux (fuel + 1 + 1) els
      = (if (runPass els).2 then
          ((resolveAux (fuel + 1) (runPass els).1).1,
            (runPass els).2 :: (resolveAux (fuel + 1) (runPass els).1).2)
         else ((runPass els).1, [(runPass els).2])) := rfl
  rw [hstep, h1]
  by_cases hp : (runPass els).2 = true
  · simp only [hp, if_true]
  · rw [Bool.not_eq_true] at hp
    simp only [hp, Bool.false_eq_true, if_false]

theorem resolve_final_eq (els : List MapElement) :
    resolveAux 10 els
      = ((runPass els).1, if (runPass els).2 then [true, false] else [false]) :=
  resolveAux_key 8 els

theorem resolve_clutter_fst (els : List MapElement) :
    (resolve_clutter els).1 = (runPass els).1 := by
  unfold resolve_clutter
  rw [resolve_final_eq]

theorem resolve_clutter_settled (els : List MapElement) :
    SettledAll (fixed_elements (resolve_clutter els).1) (resolve_clutter els).1 := by
  rw [fixed_elements_resolve_clutter, resolve_clutter_fst]
  exact runPass_settles els

/-! ### Claim theorems -/

theorem BoundingBox.eta (b : BoundingBox) :
    BoundingBox.mk b.x b.y b.width b.height = b := rfl

/-- Strict separation of two boxes along the x-axis (the spec's notion of one
box being fully to the left/right of the other). -/
def separatedX (a b : BoundingBox) : Prop :=
  a.x + a.width < b.x ∨ b.x + b.width < a.x

/-- Strict separation of two boxes along the y-axis (fully above/below). -/
def separatedY (a b : BoundingBox) : Prop :=
  a.y + a.height < b.y ∨ b.y + b.height < a.y

/-- C3: for boxes with non-negative widths and heights, `intersects` is true
iff the boxes are not strictly separated along either axis (separation tested
with strict `<`); in particular boxes sharing an edge (`a.x + a.width = b.x`)
are reported as intersecting. -/
theorem C3_intersects_characterization (a b : BoundingBox)
    (hwa : 0 ≤ a.width) (hha : 0 ≤ a.height) (hwb : 0 ≤ b.width) (hhb : 0 ≤ b.height) :
    (a.intersects b = true ↔ ¬(separatedX a b ∨ separatedY a b)) ∧
    (a.x + a.width = b.x → ¬ separatedY a b → a.intersects b = true) := by
  unfold BoundingBox.intersects separatedX separatedY
  constructor
  · simp only [Bool.not_eq_eq_eq_not, Bool.not_true, Bool.or_eq_false_iff,
      decide_eq_false_iff_not]
    tauto
  · intro hx hy
    simp only [not_or] at hy
    simp only [Bool.not_eq_eq_eq_not, Bool.not_true, Bool.or_eq_false_iff,
      decide_eq_false_iff_not]
    omega

theorem C3_intersects_characterization_witness :
    (BoundingBox.mk 0 0 5 5).intersects (BoundingBox.mk 5 0 5 5) = true :=
  (C3_intersects_characterization (BoundingBox.mk 0 0 5 5) (BoundingBox.mk 5 0 5 5)
      (by decide) (by decide) (by decide) (by decide)).2
    (by decide) (by unfold separatedY; decide)

/-- C6: a constructed element's priority is 10 for `road` or `river`, 1 for
`label`, 2 for `icon` and 0 for any other string, and its `movable` flag
equals `priority < 5`. -/
theorem C6_priority_table (id element_type : String) (bbox : BoundingBox) :
    (MapElement.make id element_type bbox).priority
      = (if element_type = "road" ∨ element_type = "river" then 10
         else if element_type = "label" then 1
         else if element_type = "icon" then 2
         else 0) ∧
    (MapElement.make id element_type bbox).movable
      = decide ((MapElement.make id element_type bbox).priority < 5) := by
  constructor
  · show PRIORITY element_type = _
    unfold PRIORITY
    split_ifs <;> simp_all
  · rfl

/-- C9: after construction, `fixed_elements` and `movable_elements` are the
order-preserving subsequences of non-movable resp. movable input elements and
together they are a permutation of the input (every element exactly once). -/
theorem C9_partition (elements : List MapElement) :
    List.Sublist (fixed_elements elements) elements ∧
    List.Sublist (movable_elements elements) elements ∧
    (∀ e : MapElement, e ∈ fixed_elements elements ↔ e ∈ elements ∧ e.movable = false) ∧
    (∀ e : MapElement, e ∈ movable_elements elements ↔ e ∈ elements ∧ e.movable = true) ∧
    List.Perm (fixed_elements elements ++ movable_elements elements) elements := by
  refine ⟨List.filter_sublist _, List.filter_sublist _, ?memFixed, ?memMovable, ?perm⟩
  · intro e
    simp [fixed_elements, List.mem_filter]
  · intro e
    simp [movable_elements, List.mem_filter]
  · unfold fixed_elements movable_elements
    have h2 : elements.filter (fun x => x.movable) = elements.filter (fun x => !(!x.movable)) :=
      List.filter_congr (fun x _ => by simp)
    rw [h2]
    exact List.filter_append_perm _ _

/-- C10: `move_percentage` is 0 when there are no movable elements, and is
exactly `100 * elements_moved / movable_elements` otherwise, where
`elements_moved` counts movable elements with `moved = true`. -/
theorem C10_move_percentage (elements : List MapElement) :
    (get_statistics elements).elements_moved
        = ((movable_elements elements).filter (fun e => e.moved)).length ∧
    (get_statistics elements).move_percentage
      = (if (movable_elements elements).length = 0 then 0
         else 100 * (((movable_elements elements).filter (fun e => e.moved)).length : ℚ)
            / ((movable_elements elements).length : ℚ)) := by
  refine ⟨rfl, ?pct⟩
  show (if 0 < (movable_elements elements).length then
        (((movable_elements elements).filter (fun e => e.moved)).length : ℚ) /
          ((movable_elements elements).length : ℚ) * 100
       else 0) = _
  by_cases h : (movable_elements elements).length = 0
  · simp [h]
  · have hpos : 0 < (movable_elements elements).length := Nat.pos_of_ne_zero h
    rw [if_pos hpos, if_neg h]
    ring

/-- C8: after `resolve_clutter`, every element's `original_bbox` still equals
the bbox it was constructed with, however many times its `bbox` was replaced. -/
theorem C8_original_bbox (inputs : List (String × String × BoundingBox)) (i : Nat) :
    ((resolve_clutter (inputs.map (fun t => MapElement.make t.1 t.2.1 t.2.2))).1.get? i).map
        (fun e => e.original_bbox)
      = (inputs.get? i).map (fun t => t.2.2) := by
  set els := inputs.map (fun t => MapElement.make t.1 t.2.1 t.2.2) with hels
  have h1 : ((resolve_clutter els).1.get? i).map immut = (els.get? i).map immut := by
    rw [← List.get?_map, ← List.get?_map, immut_resolve_clutter els]
  have h2 : els.get? i = (inputs.get? i).map (fun t => MapElement.make t.1 t.2.1 t.2.2) := by
    rw [hels, List.get?_map]
  cases hi : inputs.get? i with
  | none =>
    rw [hi] at h2
    simp only [Option.map_none'] at h2
    rw [h2] at h1
    simp only [Option.map_none'] at h1
    rw [Option.map_eq_none'.mp h1]
    rfl
  | some t =>
    rw [hi] at h2
    simp only [Option.map_some'] at h2
    rw [h2] at h1
    cases hr : (resolve_clutter els).1.get? i with
    | none =>
      rw [hr] at h1
      simp at h1
    | some e =>
      rw [hr] at h1
      simp only [Option.map_some', Option.some.injEq] at h1
      have horig : e.original_bbox = t.2.2 := by
        have hcomp := congrArg (fun p => p.2.2.1) h1
        simpa [immut, MapElement.make, BoundingBox.eta] using hcomp
      simp [horig]

theorem declutterStep_get?_fixed (els : List MapElement) (k i : Nat) (e : MapElement)
    (h : els.get? i = some e) (hm : e.movable = false) :
    (declutterStep els k).1.get? i = some e := by
  by_cases hk : k = i
  · subst hk
    unfold declutterStep
    rw [h]
    simpa [hm] using h
  · rw [declutterStep_get?_ne els k i hk]
    exact h

theorem runPassAux_get?_fixed :
    ∀ (idxs : List Nat) (els : List MapElement) (r : Bool) (i : Nat) (e : MapElement),
      els.get? i = some e → e.movable = false →
      (runPassAux idxs els r).1.get? i = some e
  | [], _, _, _, _, h, _ => h
  | k :: rest, els, r, i, e, h, hm => by
    simp only [runPassAux]
    exact runPassAux_get?_fixed rest _ _ i e (declutterStep_get?_fixed els k i e h hm) hm

theorem runPass_get?_fixed (els : List MapElement) (i : Nat) (e : MapElement)
    (h : els.get? i = some e) (hm : e.movable = false) :
    (runPass els).1.get? i = some e :=
  runPassAux_get?_fixed (List.range els.length) els false i e h hm

/-- C7: `resolve_clutter` never changes any field of a fixed element: the
element stored at a fixed element's position is the very same record after
the call. -/
theorem C7_fixed_elements_unchanged (elements : List MapElement) (i : Nat) (e : MapElement)
    (h : elements.get? i = some e) (hm : e.movable = false) :
    (resolve_clutter elements).1.get? i = some e := by
  rw [resolve_clutter_fst]
  exact runPass_get?_fixed elements i e h hm

theorem C7_fixed_elements_unchanged_witness :
    (resolve_clutter [MapElement.make "r" "road" (BoundingBox.mk 0 0 10 10)]).1.get? 0
      = some (MapElement.make "r" "road" (BoundingBox.mk 0 0 10 10)) :=
  C7_fixed_elements_unchanged [MapElement.make "r" "road" (BoundingBox.mk 0 0 10 10)] 0
    (MapElement.make "r" "road" (BoundingBox.mk 0 0 10 10)) rfl (by decide)

/-- C1: after `resolve_clutter`, a movable element either intersects no fixed
element's bbox, or it still overlaps some fixed element and every one of the
8 candidate offsets from its final (= last-attempted) bbox is rejected by
`_is_valid_position`.  Ids of movable and fixed elements are assumed
distinct, per the spec's data model (`id` unique within an engine). -/
theorem C1_resolved_no_fixed_overlap (elements : List MapElement)
    (hids : ∀ e ∈ elements, ∀ f ∈ elements, e.movable = true → f.movable = false →
      e.id ≠ f.id) :
    ∀ e ∈ (resolve_clutter elements).1, e.movable = true →
      (∀ f ∈ fixed_elements (resolve_clutter elements).1,
        e.bbox.intersects f.bbox = false) ∨
      ((∃ f ∈ fixed_elements (resolve_clutter elements).1,
          e.bbox.intersects f.bbox = true) ∧
        reposition_element (fixed_elements (resolve_clutter elements).1) e = none) := by
  intro e he hm
  set final := (resolve_clutter elements).1 with hfinal
  have hfx : fixed_elements final = fixed_elements elements :=
    fixed_elements_resolve_clutter elements
  have hsettled : SettledAll (fixed_elements final) final := resolve_clutter_settled elements
  obtain ⟨j, hj⟩ := List.mem_iff_get?.mp he
  have hsat : SettledAt (fixed_elements final) e := hsettled j e hj hm
  by_cases hov : overlapsFixedList (fixed_elements final) e = []
  · left
    intro f hf
    have hnotp : ¬ ((decide (f.id ≠ e.id) && detect_overlap e f) = true) :=
      List.filter_eq_nil.mp hov f hf
    have hidne : f.id ≠ e.id := by
      obtain ⟨e0, he0, himm⟩ : ∃ e0 ∈ elements, immut e0 = immut e := by
        have hmm : immut e ∈ final.map immut := List.mem_map.mpr ⟨e, he, rfl⟩
        rw [immut_resolve_clutter] at hmm
        exact List.mem_map.mp hmm
      have hfels : f ∈ elements ∧ f.movable = false := by
        have hmem := hf
        rw [hfx] at hmem
        have hmf := List.mem_filter.mp hmem
        exact ⟨hmf.1, by simpa using hmf.2⟩
      have hid0 : e0.id = e.id := congrArg (fun p => p.1) himm
      have hm0 : e0.movable = e.movable := congrArg (fun p => p.2.2.2.2) himm
      intro hfe
      exact hids e0 he0 f hfels.1 (by rw [hm0, hm]) hfels.2 (hid0.trans hfe.symm)
    cases hd : detect_overlap e f with
    | false => exact hd
    | true =>
      exfalso
      apply hnotp
      rw [hd]
      simp [hidne]
  · right
    constructor
    · obtain ⟨x, hx⟩ := List.exists_mem_of_ne_nil _ hov
      have hxm := List.mem_filter.mp hx
      have hand : x.id ≠ e.id ∧ detect_overlap e x = true := by simpa using hxm.2
      exact ⟨x, hxm.1, hand.2⟩
    · exact hsat hov

/-- Sample engine: the spec's concrete scenario, a movable label overlapping
a fixed road. -/
def scenario_label : MapElement :=
  MapElement.make "L1" "label" (BoundingBox.mk 30 83 25 12)

def scenario_road : MapElement :=
  MapElement.make "road_1" "road" (BoundingBox.mk 20 80 160 15)

def scenario_elements : List MapElement := [scenario_label, scenario_road]

/-- The label of the sample engine as it stands after resolution: moved down
by the second candidate offset, with `moved = true`. -/
def scenario_label_final : MapElement :=
  MapElement.mk "L1" "label" (BoundingBox.mk 30 98 25 12) 1 true
    (BoundingBox.mk 30 83 25 12) true

theorem C1_resolved_no_fixed_overlap_witness :
    (∀ f ∈ fixed_elements (resolve_clutter scenario_elements).1,
      scenario_label_final.bbox.intersects f.bbox = false) ∨
    ((∃ f ∈ fixed_elements (resolve_clutter scenario_elements).1,
        scenario_label_final.bbox.intersects f.bbox = true) ∧
      reposition_element (fixed_elements (resolve_clutter scenario_elements).1)
        scenario_label_final = none) :=
  C1_resolved_no_fixed_overlap scenario_elements (by decide) scenario_label_final
    (by decide) (by decide)

/-- C4: the iteration count is in `[1, 10]`, and it is below 10 exactly when
some executed iteration performed zero repositionings (the count includes
that final non-productive iteration, recorded as `false` in the trace). -/
theorem C4_iteration_count_range (elements : List MapElement) :
    1 ≤ (resolve_clutter elements).2 ∧ (resolve_clutter elements).2 ≤ 10 ∧
      ((resolve_clutter elements).2 < 10 ↔ false ∈ (resolveAux 10 elements).2) := by
  have hlen : (resolve_clutter elements).2 = (resolveAux 10 elements).2.length := rfl
  have htr : (resolveAux 10 elements).2
      = (if (runPass elements).2 then [true, false] else [false]) := by
    rw [resolve_final_eq]
  by_cases hp : (runPass elements).2 = true
  · rw [hlen, htr, hp]
    decide
  · rw [Bool.not_eq_true] at hp
    rw [hlen, htr, hp]
    decide

/-- C5: because `_is_valid_position` consults only the never-moving fixed
elements, a second pass never repositions anything, so `resolve_clutter`
executes at most 2 iterations and never reaches the cap of 10. -/
theorem C5_at_most_two_iterations (elements : List MapElement) :
    (resolve_clutter elements).2 ≤ 2 := by
  have hlen : (resolve_clutter elements).2 = (resolveAux 10 elements).2.length := rfl
  have htr : (resolveAux 10 elements).2
      = (if (runPass elements).2 then [true, false] else [false]) := by
    rw [resolve_final_eq]
  by_cases hp : (runPass elements).2 = true
  · rw [hlen, htr, hp]
    decide
  · rw [Bool.not_eq_true] at hp
    rw [hlen, htr, hp]
    decide

/-- C2 fails on the code: in the spec's concrete scenario the label is NOT
relocated to `(30, 68, 25, 12)` — that candidate touches the road's top edge
and edge-touching counts as intersecting, so offset `(0, -15)` is rejected. -/
theorem C2_first_offset_counterexample :
    ((resolve_clutter scenario_elements).1.get? 0).map (fun e => e.bbox)
      ≠ some (BoundingBox.mk 30 68 25 12) := by
  decide

/-- C2 amended: the label is relocated to `(30, 98, 25, 12)` — the second
candidate offset `(0, 15)` — because the first candidate `(30, 68, 25, 12)`
still intersects the road (edge-inclusive test); `moved` becomes true. -/
theorem C2_second_offset_amended :
    ((resolve_clutter scenario_elements).1.get? 0).map (fun e => (e.bbox, e.moved))
      = some (BoundingBox.mk 30 98 25 12, true) ∧
    (scenario_label.bbox.move 0 (-15)).intersects scenario_road.bbox = true ∧
    reposition_element (fixed_elements scenario_elements) scenario_label
      = some (BoundingBox.mk 30 98 25 12) := by
  refine ⟨?resolved, ?edgeTouch, ?secondOffset⟩
  · decide
  · decide
  · decide
